import Mathlib

/-!
Verification of BlueBrain Search against its specification.

This file gives a shallow embedding of the parts of the repository that the
claims refer to:

* `src/bluesearch/embedding_models.py` — the `EmbeddingModel` abstraction,
  `SBioBERT.masked_mean`, `compute_database_embeddings`,
  `get_embedding_model` and the multiprocessing orchestrator `MPEmbedder`
  (`__init__`, `do_embedding`, `run_embedding_worker`);
* `src/bbsearch/widgets/mining_widget.py` — `MiningWidget.textmining_pipeline`
  and `MiningWidget.get_extracted_table`.

Numeric tensor entries are modelled over `ℚ` (exact arithmetic standing in for
the floating-point values of numpy/torch); machine integers are `Nat`/`Int`;
fallible Python code (raising) is modelled with `Option`/`Except`.
-/

namespace BlueBrainSearch

/-! ### Embedding model abstraction (`EmbeddingModel`, embedding_models.py)

An embedding model is used by `compute_database_embeddings` only through
`preprocess_many` and `embed_many` together with its dimension `dim`.
`embed_many` returns a 2-D array, modelled as a list of rows. -/

structure EmbeddingModel where
  dim : Nat
  preprocess_many : List String → List String
  embed_many : List String → List (List ℚ)

/-! ### `compute_database_embeddings` (embedding_models.py, lines 648-704)

The Python function retrieves the sentences for `indices` from the store
(`retrieve_sentences_from_sentence_ids`), then loops

    for batch_ix in range((n_sentences // batch_size) + 1):
        start_ix = batch_ix * batch_size
        end_ix = min((batch_ix + 1) * batch_size, n_sentences)
        if start_ix == end_ix:
            continue
        ...

accumulating per-batch embeddings and sentence ids, and finally calls
`np.concatenate(all_embeddings, axis=0)` — which raises `ValueError` when the
list of batch arrays is empty.  The store is modelled as a function from the
requested indices to the list of retrieved `(sentence_id, text)` rows of the
pandas table returned by the SQL helper. -/

def cdeBatches (n_sentences batch_size : Nat) : List (Nat × Nat) :=
  (List.range (n_sentences / batch_size + 1)).filterMap (fun batch_ix =>
    if batch_ix * batch_size = min ((batch_ix + 1) * batch_size) n_sentences then none
    else some (batch_ix * batch_size, min ((batch_ix + 1) * batch_size) n_sentences))

def compute_database_embeddings (store : List Int → List (Int × String))
    (model : EmbeddingModel) (indices : List Int) (batch_size : Nat) :
    Option (List (List ℚ) × List Int) :=
  let sentences := store indices
  let batches := cdeBatches sentences.length batch_size
  let results := batches.map (fun p =>
    let batch := (sentences.drop p.1).take (p.2 - p.1)
    let embeddings := model.embed_many (model.preprocess_many (batch.map Prod.snd))
    (embeddings, batch.map Prod.fst))
  -- `np.concatenate` of an empty list of arrays raises `ValueError`
  if results.isEmpty then none
  else some ((results.map Prod.fst).flatten, (results.map Prod.snd).flatten)

/-! ### `np.array_split` and the `MPEmbedder` index chunking

`np.array_split(ary, k)` (for an integer number of sections `k`) splits `ary`
into `k` contiguous sections: with `q, r = divmod(len(ary), k)` the first `r`
sections have `q + 1` elements and the remaining `k - r` sections have `q`
elements. -/

def takeSlices {α : Type} : List Nat → List α → List (List α)
  | [], _ => []
  | s :: ss, l => l.take s :: takeSlices ss (l.drop s)

def array_split_sizes (n k : Nat) : List Nat :=
  (List.range k).map (fun i => if i < n % k then n / k + 1 else n / k)

def array_split {α : Type} (l : List α) (k : Nat) : List (List α) :=
  takeSlices (array_split_sizes l.length k) l

/-- Chunking done by `MPEmbedder.do_embedding` (embedding_models.py, lines
858-860): `[x for x in np.array_split(self.indices, self.n_processes) if len(x) > 0]`. -/
def do_embedding_splits (indices : List Int) (n_processes : Nat) : List (List Int) :=
  (array_split indices n_processes).filter (fun x => !x.isEmpty)

/-- Row-wise concatenation performed by `H5.concatenate`: the rows of each
input store's dataset are appended into the output store in input-path order. -/
def H5_concatenate_rows {α : Type} (temp_files : List (List α)) : List α :=
  temp_files.flatten

/-- The `<dataset>_indices` rows of the final output file of
`MPEmbedder.do_embedding`: each worker writes its chunk's sentence ids into its
temp file, and the parent concatenates the temp files in worker/chunk order
(`h5_paths_temp` is built in the same loop that creates the chunks). -/
def do_embedding_final_indices (indices : List Int) (n_processes : Nat) : List Int :=
  H5_concatenate_rows (do_embedding_splits indices n_processes)

/-- Sub-batching done by `MPEmbedder.run_embedding_worker` (embedding_models.py,
lines 968-972):

    batch_size = min(n_indices, batch_size)
    splits = np.array_split(np.arange(n_indices), n_indices / batch_size)
    splits = [split for split in splits if len(split) > 0]

`n_indices / batch_size` is Python 3 float division; `np.array_split` truncates
it to `int(n_indices / batch_size)`, i.e. `n_indices / batch_size` rounded
toward zero, which for these nonnegative ints is the floor `n_indices //
batch_size`.  The worker then embeds `indices[split]` for each split; splitting
the positions `np.arange(n_indices)` and indexing is the same as splitting the
chunk itself, which is how it is modelled here. -/
def run_embedding_worker_splits (indices : List Int) (batch_size : Nat) : List (List Int) :=
  let n_indices := indices.length
  let capped_batch_size := min n_indices batch_size
  let n_sections := n_indices / capped_batch_size
  (array_split indices n_sections).filter (fun s => !s.isEmpty)

/-- Worker chunk of 25 sentence ids, used as a concrete input. -/
def chunk25 : List Int := (List.range 25).map Int.ofNat

/-! ### `MPEmbedder.__init__` (embedding_models.py, lines 810-847) -/

structure MPEmbedder where
  database_url : String
  model_name_or_class : String
  indices : List Int
  h5_path_output : String
  batch_size_inference : Nat
  batch_size_transfer : Nat
  n_processes : Nat
  checkpoint_path : Option String
  gpus : Option (List (Option Nat))
  delete_temp : Bool
  temp_folder : Option String
  h5_dataset_name : String

/-- Constructor of `MPEmbedder`.  The Python `__init__` stores the arguments
and raises `ValueError("One needs to specify the GPU for each process
separately")` when `gpus is not None and len(gpus) != n_processes`; worker
processes are only launched later, by `do_embedding` on a successfully
constructed instance. -/
def MPEmbedder.init (database_url model_name_or_class : String) (indices : List Int)
    (h5_path_output : String) (batch_size_inference batch_size_transfer n_processes : Nat)
    (checkpoint_path : Option String) (gpus : Option (List (Option Nat)))
    (delete_temp : Bool) (temp_folder : Option String) (h5_dataset_name : Option String) :
    Except String MPEmbedder :=
  match gpus with
  | some g =>
      if g.length ≠ n_processes then
        Except.error "One needs to specify the GPU for each process separately"
      else
        Except.ok ⟨database_url, model_name_or_class, indices, h5_path_output,
          batch_size_inference, batch_size_transfer, n_processes, checkpoint_path,
          some g, delete_temp, temp_folder, h5_dataset_name.getD model_name_or_class⟩
  | none =>
      Except.ok ⟨database_url, model_name_or_class, indices, h5_path_output,
        batch_size_inference, batch_size_transfer, n_processes, checkpoint_path,
        none, delete_temp, temp_folder, h5_dataset_name.getD model_name_or_class⟩

/-! ### `get_embedding_model` (embedding_models.py, lines 707-762)

The factory resolves a fixed set of literal names to constructor calls.  The
constructed model is represented symbolically by which constructor is called
and with which arguments (actual checkpoint loading is a filesystem effect
outside this model). -/

inductive SentenceEmbeddingModelSpec
  | sentTransformer (model_name_or_path : Option String) (device : Option String)
  | sbiobert (device : Option String)
  | sent2vecModel (checkpoint_path : Option String)
  | bsv (checkpoint_path : Option String)
  | sklearnVectorizer (checkpoint_path : Option String)
deriving DecidableEq

def get_embedding_model (model_name_or_class : String)
    (checkpoint_path : Option String) (device : Option String) :
    Except String SentenceEmbeddingModelSpec :=
  if model_name_or_class = "SentTransformer" then
    Except.ok (.sentTransformer checkpoint_path device)
  else if model_name_or_class = "BioBERT NLI+STS" then
    Except.ok (.sentTransformer (some "clagator/biobert_v1.1_pubmed_nli_sts") device)
  else if model_name_or_class = "SBioBERT" then
    Except.ok (.sbiobert device)
  else if model_name_or_class = "SBERT" then
    Except.ok (.sentTransformer (some "bert-base-nli-mean-tokens") device)
  else if model_name_or_class = "Sent2VecModel" then
    Except.ok (.sent2vecModel checkpoint_path)
  else if model_name_or_class = "BSV" then
    Except.ok (.bsv checkpoint_path)
  else if model_name_or_class = "SklearnVectorizer" then
    Except.ok (.sklearnVectorizer checkpoint_path)
  else
    Except.error ("Unknown model name or class: " ++ model_name_or_class)

def embedding_model_names : List String :=
  ["SentTransformer", "BioBERT NLI+STS", "SBioBERT", "SBERT",
   "Sent2VecModel", "BSV", "SklearnVectorizer"]

/-! ### `SBioBERT.masked_mean` (embedding_models.py, lines 257-291)

    input_mask_expanded = attention_mask.unsqueeze(-1).expand(token_embeddings.size()).float()
    sum_embeddings = torch.sum(token_embeddings * input_mask_expanded, 1)
    sum_mask = torch.clamp(input_mask_expanded.sum(1), min=1e-9)
    sentence_embeddings = sum_embeddings / sum_mask

`last_hidden_state` has shape `(n_sentences, sequence_length, dim)` and is
modelled as a list of samples, each a list of token vectors; the attention
mask has shape `(n_sentences, sequence_length)`.  The expanded mask sums to
the same scalar `mask.sum` in every one of the `dim` coordinates, so
`sum_mask` is modelled as that scalar, clamped below by `1e-9`. -/

def sumVec (dim : Nat) (rows : List (List ℚ)) : List ℚ :=
  (List.range dim).map (fun j => (rows.map (fun v => v.getD j 0)).sum)

def masked_mean (dim : Nat) (last_hidden_state : List (List (List ℚ)))
    (attention_mask : List (List ℚ)) : List (List ℚ) :=
  (last_hidden_state.zip attention_mask).map (fun sample =>
    let weighted := (sample.1.zip sample.2).map (fun tm => tm.1.map (fun x => x * tm.2))
    let sum_embeddings := sumVec dim weighted
    let sum_mask := max sample.2.sum (1 / 1000000000)
    sum_embeddings.map (fun x => x / sum_mask))

/-- Concrete 2-token, 2-dimensional batch sample. -/
def tokensW : List (List ℚ) := [[1, 2], [3, 4]]

/-! ### `MiningWidget.textmining_pipeline` (mining_widget.py, lines 70-108)

    if isinstance(information, list):
        response = requests.post(self.mining_server_url + '/database',
                                 json={"identifiers": information})
    elif isinstance(information, str):
        response = requests.post(self.mining_server_url + '/text',
                                 json={"text": information, "debug": debug})
    else:
        raise TypeError('Wrong type for the information!')

    table_extractions = None
    if response.headers["Content-Type"] == "text/csv":
        with io.StringIO(response.text) as f:
            table_extractions = pd.read_csv(f)
    else:
        print("Response content type is not text/csv.")
        print(response.headers)
        print(response.text)
-/

inductive MiningInformation
  | identifiersList (identifiers : List (Int × Int))
  | rawText (text : String)
  | otherType

inductive MiningRequestBody
  | identifiers (identifiers : List (Int × Int))
  | textDebug (text : String) (debug : Bool)
deriving DecidableEq

structure MiningPostRequest where
  url : String
  body : MiningRequestBody
deriving DecidableEq

/-- Request dispatch of `textmining_pipeline`: the returned value is the HTTP
POST that is issued; a `TypeError` means no request is sent at all. -/
def textmining_request (mining_server_url : String) (information : MiningInformation)
    (debug : Bool) : Except String MiningPostRequest :=
  match information with
  | .identifiersList ids => Except.ok ⟨mining_server_url ++ "/database", .identifiers ids⟩
  | .rawText text => Except.ok ⟨mining_server_url ++ "/text", .textDebug text debug⟩
  | .otherType => Except.error "Wrong type for the information!"

structure MiningHttpResponse where
  contentType : String
  headers : List (String × String)
  text : String

abbrev Table := List (List String)

/-- Simple model of `pd.read_csv` on a CSV string. -/
def pd_read_csv (s : String) : Table :=
  (s.splitOn "\n").map (fun line => line.splitOn ",")

inductive PrintedDiagnostic
  | contentTypeMessage
  | responseHeaders (headers : List (String × String))
  | responseBody (text : String)

/-- Response handling of `textmining_pipeline`: only a `text/csv` content type
is parsed into a table; any other content type prints three diagnostics and
leaves `table_extractions = None`. -/
def handle_response (response : MiningHttpResponse) : Option Table × List PrintedDiagnostic :=
  if response.contentType = "text/csv" then (some (pd_read_csv response.text), [])
  else (none, [.contentTypeMessage, .responseHeaders response.headers,
               .responseBody response.text])

def textmining_pipeline (mining_server_url : String) (information : MiningInformation)
    (debug : Bool) (server : MiningPostRequest → MiningHttpResponse) :
    Except String (Option Table × List PrintedDiagnostic) :=
  (textmining_request mining_server_url information debug).map (fun req =>
    handle_response (server req))

/-- A successful server response carrying the extraction table embedded in a
JSON body next to warnings, exactly as produced by the repository's own test
callback (tests/test_widgets/test_mining_widget.py, `request_callback`). -/
def jsonMiningResponse : MiningHttpResponse :=
  { contentType := "application/json"
    headers := [("request-id", "1234abcdeABCDE"), ("Content-Type", "application/json")]
    text := "\x7b\"warnings\": [\"This is a test warning\"], \"csv_extractions\": \"name,department\\nJohn Smith,Accounting\"\x7d" }

/-- A successful server response whose body is directly CSV. -/
def csvMiningResponse : MiningHttpResponse :=
  { contentType := "text/csv"
    headers := [("Content-Type", "text/csv")]
    text := "name,department\nJohn Smith,Accounting" }

/-! ### `MiningWidget.get_extracted_table` (mining_widget.py, lines 143-156)

    if self.table_extractions is not None:
        results_table = self.table_extractions.copy()
    else:
        results_table = pd.DataFrame()

Pandas data frames are mutable heap objects; `.copy()` allocates a fresh one.
The heap is modelled explicitly so that the aliasing claim (mutating the
returned table does not change the stored one) can be stated. -/

structure PandasHeap where
  tables : List Table

structure DataFrameRef where
  id : Nat

def PandasHeap.valueAt (h : PandasHeap) (r : DataFrameRef) : Table :=
  h.tables.getD r.id []

def PandasHeap.alloc (h : PandasHeap) (t : Table) : PandasHeap × DataFrameRef :=
  (⟨h.tables ++ [t]⟩, ⟨h.tables.length⟩)

def PandasHeap.copy (h : PandasHeap) (r : DataFrameRef) : PandasHeap × DataFrameRef :=
  h.alloc (h.valueAt r)

def PandasHeap.mutate (h : PandasHeap) (r : DataFrameRef) (t : Table) : PandasHeap :=
  ⟨h.tables.set r.id t⟩

def get_extracted_table (h : PandasHeap) (table_extractions : Option DataFrameRef) :
    PandasHeap × DataFrameRef :=
  match table_extractions with
  | some r => h.copy r
  | none => h.alloc []

/-- Heap holding one data frame, used as a concrete input. -/
def sampleHeap : PandasHeap := ⟨[[["a", "b"], ["c", "d"]]]⟩

def sampleRef : DataFrameRef := ⟨0⟩

/-! ### Concrete witnesses for the hypotheses of the general theorems -/

/-- Embedding model with constant 2-dimensional embeddings; satisfies the
`EmbeddingModel` contract (`embed_many` returns one row of length `dim` per
input sentence, `preprocess_many` is the default identity). -/
def constModel : EmbeddingModel :=
  { dim := 2
    preprocess_many := fun sentences => sentences
    embed_many := fun sentences => sentences.map (fun _ => [0, 0]) }

def twoSentenceStore : List Int → List (Int × String) :=
  fun _ => [(1, "first sentence"), (2, "second sentence")]

def emptyStore : List Int → List (Int × String) := fun _ => []

/-! ## Lemmas about the batch windows of `compute_database_embeddings` -/

lemma slice_take_amount (b n x : Nat) :
    min (x + b + b) n - (x + b) = min (x + b) (n - b) - x := by
  omega

lemma join_range_slices {α : Type} (b : Nat) :
    ∀ (k : Nat) (l : List α), l.length ≤ k * b →
      ((List.range k).map
        (fun i => (l.drop (i * b)).take (min ((i + 1) * b) l.length - i * b))).flatten = l := by
  intro k
  induction k with
  | zero =>
    intro l hl
    simp only [Nat.zero_mul, Nat.le_zero, List.length_eq_zero] at hl
    subst hl
    rfl
  | succ k ih =>
    intro l hl
    rw [List.range_succ_eq_map]
    simp only [List.map_cons, List.map_map, List.flatten_cons]
    have hfirst : (l.drop (0 * b)).take (min ((0 + 1) * b) l.length - 0 * b) = l.take b := by
      rcases Nat.le_total l.length b with h | h
      · simp [Nat.min_eq_right h, List.take_of_length_le h,
          List.take_of_length_le (le_refl l.length)]
      · simp [Nat.min_eq_left h]
    rw [hfirst]
    have hrest :
        (List.range k).map
            ((fun i => (l.drop (i * b)).take (min ((i + 1) * b) l.length - i * b)) ∘ Nat.succ)
          = (List.range k).map
            (fun i => ((l.drop b).drop (i * b)).take
              (min ((i + 1) * b) (l.drop b).length - i * b)) := by
      apply List.map_congr_left
      intro i _
      simp only [Function.comp_apply, Nat.succ_eq_add_one]
      have hdrop : l.drop ((i + 1) * b) = (l.drop b).drop (i * b) := by
        rw [List.drop_drop]
        congr 1
        ring
      rw [hdrop, List.length_drop]
      congr 1
      have e1 : (i + 1 + 1) * b = i * b + b + b := by ring
      have e2 : (i + 1) * b = i * b + b := by ring
      rw [e1, e2]
      exact slice_take_amount b l.length (i * b)
    rw [hrest, ih (l.drop b)]
    · exact List.take_append_drop b l
    · have hld := List.length_drop b l
      have h3 : (k + 1) * b = k * b + b := by ring
      omega

lemma flatten_filterMap_ite {α : Type} (g : Nat × Nat → List α) (g' : Nat → List α)
    (f : Nat → Option (Nat × Nat))
    (hf : ∀ i, (∀ p, f i = some p → g p = g' i) ∧ (f i = none → g' i = [])) :
    ∀ is : List Nat, ((is.filterMap f).map g).flatten = (is.map g').flatten := by
  intro is
  induction is with
  | nil => rfl
  | cons i t ih =>
    cases hfi : f i with
    | none =>
      simp only [List.filterMap_cons, hfi, List.map_cons, List.flatten_cons, (hf i).2 hfi]
      simpa using ih
    | some p =>
      simp only [List.filterMap_cons, hfi, List.map_cons, List.flatten_cons]
      rw [ih, (hf i).1 p hfi]

lemma length_le_div_succ_mul (n b : Nat) (hb : 0 < b) : n ≤ (n / b + 1) * b := by
  have h1 : b * (n / b) + n % b = n := Nat.div_add_mod n b
  have h2 : n % b < b := Nat.mod_lt n hb
  have h3 : (n / b + 1) * b = b * (n / b) + b := by ring
  omega

lemma cdeBatches_slices_join {α : Type} (l : List α) (b : Nat) (hb : 0 < b) :
    ((cdeBatches l.length b).map (fun p => (l.drop p.1).take (p.2 - p.1))).flatten = l := by
  unfold cdeBatches
  rw [flatten_filterMap_ite (fun p => (l.drop p.1).take (p.2 - p.1))
      (fun i => (l.drop (i * b)).take (min ((i + 1) * b) l.length - i * b)) _ ?_]
  · exact join_range_slices b _ l (length_le_div_succ_mul l.length b hb)
  · intro i
    constructor
    · intro p hp
      by_cases h : i * b = min ((i + 1) * b) l.length
      · rw [if_pos h] at hp
        exact absurd hp (by simp)
      · rw [if_neg h] at hp
        cases hp
        rfl
    · intro hn
      by_cases h : i * b = min ((i + 1) * b) l.length
      · have hz : min ((i + 1) * b) l.length - i * b = 0 := by omega
        simp [hz]
      · rw [if_neg h] at hn
        exact absurd hn (by simp)

lemma cdeBatches_ne_nil (n b : Nat) (hn : 0 < n) (hb : 0 < b) :
    cdeBatches n b ≠ [] := by
  intro hcontra
  unfold cdeBatches at hcontra
  rw [List.filterMap_eq_nil_iff] at hcontra
  have h0 : (0 : Nat) ∈ List.range (n / b + 1) := List.mem_range.mpr (Nat.succ_pos _)
  have h1 := hcontra 0 h0
  by_cases h : 0 * b = min ((0 + 1) * b) n
  · simp only [Nat.zero_mul, Nat.zero_add, Nat.one_mul] at h
    omega
  · rw [if_neg h] at h1
    exact absurd h1 (by simp)

/-! ## Lemmas about `np.array_split` -/

lemma takeSlices_flatten {α : Type} : ∀ (ss : List Nat) (l : List α),
    (takeSlices ss l).flatten = l.take ss.sum := by
  intro ss
  induction ss with
  | nil =>
    intro l
    simp [takeSlices]
  | cons s t ih =>
    intro l
    simp only [takeSlices, List.flatten_cons, List.sum_cons, ih (l.drop s)]
    rw [List.take_add]

lemma takeSlices_length {α : Type} : ∀ (ss : List Nat) (l : List α),
    (takeSlices ss l).length = ss.length := by
  intro ss
  induction ss with
  | nil => intro l; rfl
  | cons s t ih =>
    intro l
    simp [takeSlices, ih (l.drop s)]

lemma range_ite_sum (q r : Nat) : ∀ k : Nat,
    ((List.range k).map (fun i => if i < r then q + 1 else q)).sum = k * q + min r k := by
  intro k
  induction k with
  | zero => simp
  | succ k ih =>
    rw [List.range_succ, List.map_append, List.sum_append]
    simp only [List.map_cons, List.map_nil, List.sum_cons, List.sum_nil, Nat.add_zero]
    rw [ih, Nat.succ_mul]
    by_cases h : k < r
    · rw [if_pos h, Nat.min_eq_right (le_of_lt h),
        Nat.min_eq_right (Nat.succ_le_of_lt h)]
      simp only [Nat.succ_eq_add_one]
      ring
    · rw [if_neg h, Nat.min_eq_left (Nat.le_of_not_lt h),
        Nat.min_eq_left (Nat.le_succ_of_le (Nat.le_of_not_lt h))]
      ring

lemma array_split_sizes_sum (n k : Nat) (hk : 0 < k) : (array_split_sizes n k).sum = n := by
  unfold array_split_sizes
  rw [range_ite_sum]
  rw [Nat.min_eq_left (le_of_lt (Nat.mod_lt n hk))]
  have h := Nat.div_add_mod n k
  omega

lemma array_split_length {α : Type} (l : List α) (k : Nat) :
    (array_split l k).length = k := by
  unfold array_split
  rw [takeSlices_length]
  simp [array_split_sizes]

lemma array_split_flatten {α : Type} (l : List α) (k : Nat) (hk : 0 < k) :
    (array_split l k).flatten = l := by
  unfold array_split
  rw [takeSlices_flatten, array_split_sizes_sum _ _ hk, List.take_length]

lemma flatten_filter_nonempty {α : Type} : ∀ (L : List (List α)),
    (L.filter (fun x => !x.isEmpty)).flatten = L.flatten := by
  intro L
  induction L with
  | nil => rfl
  | cons c t ih =>
    rw [List.filter_cons]
    by_cases h : c.isEmpty
    · have hc : c = [] := List.isEmpty_iff.mp h
      simp [h, hc, ih]
    · simp only [h, Bool.not_false, if_pos]
      simp [List.flatten_cons, ih]

/-! ## Theorems about `compute_database_embeddings` -/

lemma cdeBatches_zero (b : Nat) : cdeBatches 0 b = [] := by
  unfold cdeBatches
  rw [Nat.zero_div]
  simp

lemma compute_database_embeddings_eq (store : List Int → List (Int × String))
    (model : EmbeddingModel) (indices : List Int) (batch_size : Nat)
    (hne : store indices ≠ []) (hbs : 0 < batch_size) :
    compute_database_embeddings store model indices batch_size =
      some
        (((cdeBatches (store indices).length batch_size).map (fun p =>
            model.embed_many (model.preprocess_many
              ((((store indices).drop p.1).take (p.2 - p.1)).map Prod.snd)))).flatten,
         ((cdeBatches (store indices).length batch_size).map (fun p =>
            (((store indices).drop p.1).take (p.2 - p.1)).map Prod.fst)).flatten) := by
  have hbne : cdeBatches (store indices).length batch_size ≠ [] :=
    cdeBatches_ne_nil _ _ (List.length_pos.mpr hne) hbs
  simp only [compute_database_embeddings]
  rw [if_neg ?_]
  · rw [List.map_map, List.map_map]
    rfl
  · intro hemp
    rw [List.isEmpty_iff] at hemp
    exact hbne (List.map_eq_nil_iff.mp hemp)

/-- C1: over a store in which all requested ids are found,
`compute_database_embeddings` returns a 2-D embedding array of shape
`(retrieved_count, model.dim)` and a parallel 1-D array of the retrieved
sentence ids in the same row order, in retrieval order (hence in request order
when retrieval returns exactly the requested ids); with `batch_size = 10` and
25 retrieved sentences the loop processes exactly 3 batches of sizes 10, 10
and 5.  The model hypotheses are the `EmbeddingModel` contract:
`preprocess_many` and `embed_many` return one entry per input sentence and
`embed_many` rows have length `model.dim`. -/
theorem C1_compute_database_embeddings_shape_order
    (store : List Int → List (Int × String)) (model : EmbeddingModel)
    (indices : List Int) (batch_size : Nat)
    (hbs : 0 < batch_size)
    (hpre : ∀ xs, (model.preprocess_many xs).length = xs.length)
    (hlen : ∀ xs, (model.embed_many xs).length = xs.length)
    (hdim : ∀ xs, ∀ v ∈ model.embed_many xs, v.length = model.dim)
    (hne : store indices ≠ []) :
    ∃ emb ids,
      compute_database_embeddings store model indices batch_size = some (emb, ids) ∧
      emb.length = (store indices).length ∧
      (∀ v ∈ emb, v.length = model.dim) ∧
      ids = (store indices).map Prod.fst ∧
      ((store indices).map Prod.fst = indices → ids = indices) ∧
      (cdeBatches 25 10).map (fun p => p.2 - p.1) = [10, 10, 5] := by
  have heq := compute_database_embeddings_eq store model indices batch_size hne hbs
  have hids : ((cdeBatches (store indices).length batch_size).map (fun p =>
      (((store indices).drop p.1).take (p.2 - p.1)).map Prod.fst)).flatten
      = (store indices).map Prod.fst := by
    have h1 : (cdeBatches (store indices).length batch_size).map (fun p =>
        (((store indices).drop p.1).take (p.2 - p.1)).map Prod.fst)
        = ((cdeBatches (store indices).length batch_size).map (fun p =>
            ((store indices).drop p.1).take (p.2 - p.1))).map (List.map Prod.fst) := by
      rw [List.map_map]
      rfl
    rw [h1, ← List.map_flatten, cdeBatches_slices_join _ _ hbs]
  have hemblen : (((cdeBatches (store indices).length batch_size).map (fun p =>
      model.embed_many (model.preprocess_many
        ((((store indices).drop p.1).take (p.2 - p.1)).map Prod.snd)))).flatten).length
      = (store indices).length := by
    rw [List.length_flatten, List.map_map]
    have h2 : (cdeBatches (store indices).length batch_size).map
        (List.length ∘ fun p => model.embed_many (model.preprocess_many
          ((((store indices).drop p.1).take (p.2 - p.1)).map Prod.snd)))
        = (cdeBatches (store indices).length batch_size).map (fun p =>
            (((store indices).drop p.1).take (p.2 - p.1)).length) := by
      apply List.map_congr_left
      intro p _
      simp only [Function.comp_apply]
      rw [hlen, hpre, List.length_map]
    rw [h2]
    have h3 : (cdeBatches (store indices).length batch_size).map (fun p =>
        (((store indices).drop p.1).take (p.2 - p.1)).length)
        = ((cdeBatches (store indices).length batch_size).map (fun p =>
            ((store indices).drop p.1).take (p.2 - p.1))).map List.length := by
      rw [List.map_map]
      rfl
    rw [h3, ← List.length_flatten, cdeBatches_slices_join _ _ hbs]
  have hrows : ∀ v ∈ ((cdeBatches (store indices).length batch_size).map (fun p =>
      model.embed_many (model.preprocess_many
        ((((store indices).drop p.1).take (p.2 - p.1)).map Prod.snd)))).flatten,
      v.length = model.dim := by
    intro v hv
    rw [List.mem_flatten] at hv
    obtain ⟨rows, hrowmem, hvrows⟩ := hv
    rw [List.mem_map] at hrowmem
    obtain ⟨p, hp, rfl⟩ := hrowmem
    exact hdim _ v hvrows
  exact ⟨_, _, heq, hemblen, hrows, hids, fun hfst => hids.trans hfst, by decide⟩

/-- C1 witness: a concrete store with two retrieved sentences, the constant
2-dimensional model and `batch_size = 1`. -/
theorem C1_witness :
    (0 : Nat) < 1 ∧
    twoSentenceStore [1, 2] ≠ [] ∧
    (∃ emb ids,
      compute_database_embeddings twoSentenceStore constModel [1, 2] 1 = some (emb, ids) ∧
      emb.length = (twoSentenceStore [1, 2]).length ∧
      (∀ v ∈ emb, v.length = constModel.dim) ∧
      ids = (twoSentenceStore [1, 2]).map Prod.fst ∧
      ((twoSentenceStore [1, 2]).map Prod.fst = [1, 2] → ids = [1, 2]) ∧
      (cdeBatches 25 10).map (fun p => p.2 - p.1) = [10, 10, 5]) :=
  ⟨by decide, by decide,
    C1_compute_database_embeddings_shape_order twoSentenceStore constModel [1, 2] 1
      (by decide)
      (fun xs => rfl)
      (by intro xs; simp [constModel])
      (by
        intro xs v hv
        simp only [constModel] at hv
        rcases List.mem_map.mp hv with ⟨s, hs, rfl⟩
        rfl)
      (by decide)⟩

/-- C10: when the store returns zero sentences for the requested indices,
`compute_database_embeddings` fails (the `np.concatenate` of an empty list of
per-batch arrays raises `ValueError`, modelled as `none`) instead of returning
a pair of empty arrays; returning normally requires at least one retrieved
sentence. -/
theorem C10_empty_retrieval_errors (store : List Int → List (Int × String))
    (model : EmbeddingModel) (indices : List Int) (batch_size : Nat)
    (hbs : 0 < batch_size) :
    (store indices = [] →
      compute_database_embeddings store model indices batch_size = none) ∧
    (∀ r, compute_database_embeddings store model indices batch_size = some r →
      store indices ≠ []) := by
  constructor
  · intro hemp
    simp only [compute_database_embeddings, hemp]
    simp [cdeBatches_zero]
  · intro r hr hemp
    have h1 : compute_database_embeddings store model indices batch_size = none := by
      simp only [compute_database_embeddings, hemp]
      simp [cdeBatches_zero]
    rw [h1] at hr
    exact Option.noConfusion hr

/-- C10 witness: the empty store with `batch_size = 1`. -/
theorem C10_witness :
    (0 : Nat) < 1 ∧
    ((emptyStore [] = [] →
        compute_database_embeddings emptyStore constModel [] 1 = none) ∧
     (∀ r, compute_database_embeddings emptyStore constModel [] 1 = some r →
        emptyStore [] ≠ [])) :=
  ⟨by decide, C10_empty_retrieval_errors emptyStore constModel [] 1 (by decide)⟩

/-! ## Theorems about the `MPEmbedder` chunking -/

/-- C2 (code bug evaluation): `MPEmbedder.run_embedding_worker` on a chunk of
25 indices with `batch_size_inference = 10` produces 2 sub-batches of sizes 13
and 12 — the first one larger than the batch size — because the number of
sections passed to `np.array_split` is `int(n_indices / batch_size)` (floor)
rather than the ceiling.  The sub-batches are still a partition of the chunk
in order.  This contradicts both the claim and the class's own docstring
("the last batch will have a length of `n_sentences % batch_size`", which here
would be 5). -/
theorem C2_run_embedding_worker_oversized_subbatches :
    (run_embedding_worker_splits chunk25 10).map List.length = [13, 12] ∧
    (∃ s ∈ run_embedding_worker_splits chunk25 10, 10 < s.length) ∧
    (run_embedding_worker_splits chunk25 10).flatten = chunk25 := by
  refine ⟨by decide, ?_, by decide⟩
  refine ⟨(run_embedding_worker_splits chunk25 10).headI, by decide, by decide⟩

/-- C3: `MPEmbedder.do_embedding` splits `indices` into at most `n_processes`
contiguous chunks, drops every empty chunk, and the concatenation of the
non-empty chunks in chunk order — which is exactly the order in which the
workers' temp files are concatenated into the final output file — equals the
original indices array. -/
theorem C3_do_embedding_chunking (indices : List Int) (n_processes : Nat)
    (hp : 0 < n_processes) :
    (do_embedding_splits indices n_processes).length ≤ n_processes ∧
    (∀ c ∈ do_embedding_splits indices n_processes, c ≠ []) ∧
    do_embedding_final_indices indices n_processes = indices := by
  refine ⟨?_, ?_, ?_⟩
  · calc (do_embedding_splits indices n_processes).length
        ≤ (array_split indices n_processes).length :=
          List.length_filter_le _ _
      _ = n_processes := array_split_length indices n_processes
  · intro c hc
    have hmem := List.of_mem_filter hc
    intro hcnil
    rw [hcnil] at hmem
    simp at hmem
  · unfold do_embedding_final_indices H5_concatenate_rows do_embedding_splits
    rw [flatten_filter_nonempty, array_split_flatten indices n_processes hp]

/-- C3 witness: three indices split over two processes. -/
theorem C3_witness :
    (0 : Nat) < 2 ∧
    ((do_embedding_splits [1, 2, 3] 2).length ≤ 2 ∧
     (∀ c ∈ do_embedding_splits [1, 2, 3] 2, c ≠ []) ∧
     do_embedding_final_indices [1, 2, 3] 2 = [1, 2, 3]) :=
  ⟨by decide, C3_do_embedding_chunking [1, 2, 3] 2 (by decide)⟩

/-- C4: constructing `MPEmbedder` with a `gpus` list whose length differs from
`n_processes` fails with the `ValueError` at construction time (worker
processes are only ever launched by `do_embedding` on a successfully
constructed instance); with `gpus = None` or a list of exactly `n_processes`
entries, construction succeeds. -/
theorem C4_mpembedder_gpus_check (database_url model_name_or_class : String)
    (indices : List Int) (h5_path_output : String)
    (batch_size_inference batch_size_transfer n_processes : Nat)
    (checkpoint_path : Option String) (gpus : Option (List (Option Nat)))
    (delete_temp : Bool) (temp_folder : Option String) (h5_dataset_name : Option String) :
    ((∃ e, MPEmbedder.init database_url model_name_or_class indices h5_path_output
        batch_size_inference batch_size_transfer n_processes checkpoint_path gpus
        delete_temp temp_folder h5_dataset_name = Except.error e)
      ↔ ∃ g, gpus = some g ∧ g.length ≠ n_processes) ∧
    ((∃ m, MPEmbedder.init database_url model_name_or_class indices h5_path_output
        batch_size_inference batch_size_transfer n_processes checkpoint_path gpus
        delete_temp temp_folder h5_dataset_name = Except.ok m)
      ↔ (gpus = none ∨ ∃ g, gpus = some g ∧ g.length = n_processes)) := by
  cases gpus with
  | none => simp [MPEmbedder.init]
  | some g =>
    by_cases h : g.length = n_processes
    · simp [MPEmbedder.init, h]
    · simp [MPEmbedder.init, h]

/-! ## Theorems about `get_embedding_model` -/

lemma get_embedding_model_unknown (name : String) (cp dev : Option String)
    (h : name ∉ embedding_model_names) :
    get_embedding_model name cp dev
      = Except.error ("Unknown model name or class: " ++ name) := by
  simp only [embedding_model_names, List.mem_cons, List.not_mem_nil, or_false, not_or] at h
  obtain ⟨h1, h2, h3, h4, h5, h6, h7⟩ := h
  unfold get_embedding_model
  rw [if_neg h1, if_neg h2, if_neg h3, if_neg h4, if_neg h5, if_neg h6, if_neg h7]

/-- C5: `get_embedding_model` succeeds exactly for the seven literal names,
returning the corresponding constructed model (construction is represented
symbolically: which constructor is called, with which arguments), and fails
with the `ValueError` for every other name. -/
theorem C5_get_embedding_model_names (name : String) (cp dev : Option String) :
    ((∃ m, get_embedding_model name cp dev = Except.ok m)
      ↔ name ∈ embedding_model_names) ∧
    ((get_embedding_model name cp dev
        = Except.error ("Unknown model name or class: " ++ name))
      ↔ name ∉ embedding_model_names) ∧
    get_embedding_model "SentTransformer" cp dev
      = Except.ok (.sentTransformer cp dev) ∧
    get_embedding_model "BioBERT NLI+STS" cp dev
      = Except.ok (.sentTransformer (some "clagator/biobert_v1.1_pubmed_nli_sts") dev) ∧
    get_embedding_model "SBioBERT" cp dev = Except.ok (.sbiobert dev) ∧
    get_embedding_model "SBERT" cp dev
      = Except.ok (.sentTransformer (some "bert-base-nli-mean-tokens") dev) ∧
    get_embedding_model "Sent2VecModel" cp dev = Except.ok (.sent2vecModel cp) ∧
    get_embedding_model "BSV" cp dev = Except.ok (.bsv cp) ∧
    get_embedding_model "SklearnVectorizer" cp dev
      = Except.ok (.sklearnVectorizer cp) := by
  have hok_of_mem : name ∈ embedding_model_names →
      ∃ m, get_embedding_model name cp dev = Except.ok m := by
    intro hmem
    simp only [embedding_model_names, List.mem_cons, List.not_mem_nil, or_false] at hmem
    rcases hmem with rfl | rfl | rfl | rfl | rfl | rfl | rfl
    all_goals exact ⟨_, rfl⟩
  refine ⟨⟨?_, hok_of_mem⟩,
    ⟨?_, fun hmem => get_embedding_model_unknown name cp dev hmem⟩,
    rfl, rfl, rfl, rfl, rfl, rfl, rfl⟩
  · rintro ⟨m, hm⟩
    by_contra hmem
    rw [get_embedding_model_unknown name cp dev hmem] at hm
    exact Except.noConfusion hm
  · intro herr hmem
    obtain ⟨m, hm⟩ := hok_of_mem hmem
    rw [hm] at herr
    exact Except.noConfusion herr

/-! ## Theorems about `SBioBERT.masked_mean` -/

lemma zip_replicate_self {α β : Type} (c : β) : ∀ (l : List α),
    l.zip (List.replicate l.length c) = l.map (fun x => (x, c)) := by
  intro l
  induction l with
  | nil => rfl
  | cons a t ih => simp [List.replicate_succ, ih]

lemma getD_zero_of_all_zero (v : List ℚ) (hv : ∀ x ∈ v, x = 0) (j : Nat) :
    v.getD j 0 = 0 := by
  rcases Nat.lt_or_ge j v.length with h | h
  · rw [List.getD_eq_getElem _ _ h]
    exact hv _ (List.getElem_mem h)
  · rw [List.getD_eq_default _ _ h]

lemma clamp_nat_cast (L : Nat) (hL : 0 < L) :
    max ((L : ℚ)) (1 / 1000000000) = (L : ℚ) := by
  rw [max_eq_left]
  calc (1 : ℚ) / 1000000000 ≤ 1 := by norm_num
    _ ≤ (L : ℚ) := by exact_mod_cast hL

/-- C6: `SBioBERT.masked_mean` with an all-ones attention mask equals the
unweighted mean of the sample's token embeddings along the token axis; with an
all-zero mask row the result is the zero vector divided by the `1e-9` clamp
floor — i.e. exactly the zero vector, not a division-by-zero error. -/
theorem C6_masked_mean (dim : Nat) (tokens : List (List ℚ)) (hL : 0 < tokens.length) :
    masked_mean dim [tokens] [List.replicate tokens.length 1]
      = [(List.range dim).map (fun j =>
          (tokens.map (fun v => v.getD j 0)).sum / (tokens.length : ℚ))] ∧
    masked_mean dim [tokens] [List.replicate tokens.length 0]
      = [List.replicate dim 0] := by
  constructor
  · have hw : (tokens.zip (List.replicate tokens.length (1 : ℚ))).map
        (fun tm => tm.1.map (fun x => x * tm.2)) = tokens := by
      rw [zip_replicate_self, List.map_map]
      have h1 : tokens.map ((fun tm : List ℚ × ℚ => tm.1.map (fun x => x * tm.2))
          ∘ fun x => (x, (1 : ℚ))) = tokens.map id := by
        apply List.map_congr_left
        intro t ht
        simp [mul_one]
      rw [h1, List.map_id]
    have hs : (List.replicate tokens.length (1 : ℚ)).sum = (tokens.length : ℚ) := by
      simp [List.sum_replicate, nsmul_eq_mul]
    show [(sumVec dim ((tokens.zip (List.replicate tokens.length (1 : ℚ))).map
        (fun tm => tm.1.map (fun x => x * tm.2)))).map
        (fun x => x / max (List.replicate tokens.length (1 : ℚ)).sum (1 / 1000000000))]
      = _
    rw [hw, hs, clamp_nat_cast tokens.length hL]
    unfold sumVec
    rw [List.map_map]
    rfl
  · have hz : ∀ v ∈ (tokens.zip (List.replicate tokens.length (0 : ℚ))).map
        (fun tm => tm.1.map (fun x => x * tm.2)), ∀ x ∈ v, x = 0 := by
      intro v hv x hx
      rw [zip_replicate_self, List.map_map] at hv
      rcases List.mem_map.mp hv with ⟨t, ht, rfl⟩
      simp only [Function.comp_apply] at hx
      rcases List.mem_map.mp hx with ⟨y, hy, rfl⟩
      exact mul_zero y
    have hsv : sumVec dim ((tokens.zip (List.replicate tokens.length (0 : ℚ))).map
        (fun tm => tm.1.map (fun x => x * tm.2))) = List.replicate dim 0 := by
      unfold sumVec
      have hcoord : (List.range dim).map (fun j =>
          (((tokens.zip (List.replicate tokens.length (0 : ℚ))).map
            (fun tm => tm.1.map (fun x => x * tm.2))).map (fun v => v.getD j 0)).sum)
          = (List.range dim).map (fun _ => (0 : ℚ)) := by
        apply List.map_congr_left
        intro j _
        apply List.sum_eq_zero
        intro x hx
        rcases List.mem_map.mp hx with ⟨v, hv, rfl⟩
        exact getD_zero_of_all_zero v (hz v hv) j
      rw [hcoord, List.map_const', List.length_range]
    show [(sumVec dim ((tokens.zip (List.replicate tokens.length (0 : ℚ))).map
        (fun tm => tm.1.map (fun x => x * tm.2)))).map
        (fun x => x / max (List.replicate tokens.length (0 : ℚ)).sum (1 / 1000000000))]
      = _
    rw [hsv, List.map_replicate, zero_div]

/-- C6 witness: a concrete two-token, two-dimensional sample. -/
theorem C6_witness :
    0 < tokensW.length ∧
    (masked_mean 2 [tokensW] [List.replicate tokensW.length 1]
        = [(List.range 2).map (fun j =>
            (tokensW.map (fun v => v.getD j 0)).sum / (tokensW.length : ℚ))] ∧
     masked_mean 2 [tokensW] [List.replicate tokensW.length 0]
        = [List.replicate 2 0]) :=
  ⟨by decide, C6_masked_mean 2 tokensW (by decide)⟩

/-! ## Theorems about the mining widget -/

/-- C7: `textmining_pipeline` with a list posts to `/database` with JSON body
key `identifiers`; with a string it posts to `/text` with keys `text` and
`debug`; with any other type it raises `TypeError` and no HTTP request is
issued (the result does not depend on the server at all). -/
theorem C7_textmining_pipeline_routing (url : String) (ids : List (Int × Int))
    (text : String) (debug : Bool) :
    textmining_request url (.identifiersList ids) debug
        = Except.ok ⟨url ++ "/database", .identifiers ids⟩ ∧
    textmining_request url (.rawText text) debug
        = Except.ok ⟨url ++ "/text", .textDebug text debug⟩ ∧
    (∀ server, textmining_pipeline url .otherType debug server
        = Except.error "Wrong type for the information!") :=
  ⟨rfl, rfl, fun _ => rfl⟩

/-- C8 (code bug evaluation): on a successful response whose CSV table is
embedded in a JSON body alongside warnings — the exact shape served by the
repository's own test callback — `textmining_pipeline` produces no table: it
goes through the non-`text/csv` branch, printing the diagnostics.  Only a
direct `text/csv` body yields a parsed table. -/
theorem C8_json_response_produces_no_table :
    (handle_response jsonMiningResponse).1 = none ∧
    (handle_response jsonMiningResponse).2
      = [PrintedDiagnostic.contentTypeMessage,
         PrintedDiagnostic.responseHeaders jsonMiningResponse.headers,
         PrintedDiagnostic.responseBody jsonMiningResponse.text] ∧
    (handle_response csvMiningResponse).1 = some (pd_read_csv csvMiningResponse.text) := by
  refine ⟨?_, ?_, ?_⟩ <;> rfl

lemma getD_concat_length {α : Type} (l : List α) (a : α) (d : α) :
    (l ++ [a]).getD l.length d = a := by
  rw [List.getD_eq_getElem?_getD, List.getElem?_concat_length]
  rfl

lemma getD_set_ne {α : Type} (l : List α) (i j : Nat) (a : α) (d : α) (hij : i ≠ j) :
    (l.set i a).getD j d = l.getD j d := by
  rw [List.getD_eq_getElem?_getD, List.getElem?_set_ne hij, ← List.getD_eq_getElem?_getD]

lemma getD_append_left {α : Type} (l₁ l₂ : List α) (j : Nat) (d : α) (hj : j < l₁.length) :
    (l₁ ++ l₂).getD j d = l₁.getD j d := by
  rw [List.getD_eq_getElem?_getD, List.getElem?_append_left hj, ← List.getD_eq_getElem?_getD]

/-- C9: `get_extracted_table` returns a copy of the last computed extraction
table when one exists (same value, freshly allocated), and an empty table when
none has been computed yet; mutating the returned table never changes the
value of the widget's stored `table_extractions`. -/
theorem C9_get_extracted_table_defensive_copy (h : PandasHeap) (r : DataFrameRef)
    (hr : r.id < h.tables.length) :
    ((get_extracted_table h (some r)).1.valueAt (get_extracted_table h (some r)).2
        = h.valueAt r) ∧
    (∀ t, ((get_extracted_table h (some r)).1.mutate
        (get_extracted_table h (some r)).2 t).valueAt r = h.valueAt r) ∧
    ((get_extracted_table h none).1.valueAt (get_extracted_table h none).2
        = ([] : Table)) := by
  refine ⟨?_, ?_, ?_⟩
  · show (h.tables ++ [h.valueAt r]).getD h.tables.length [] = h.valueAt r
    exact getD_concat_length _ _ _
  · intro t
    show ((h.tables ++ [h.valueAt r]).set h.tables.length t).getD r.id [] = h.valueAt r
    rw [getD_set_ne _ _ _ _ _ (Nat.ne_of_gt hr)]
    rw [getD_append_left _ _ _ _ hr]
    rfl
  · show (h.tables ++ [([] : Table)]).getD h.tables.length [] = ([] : Table)
    exact getD_concat_length _ _ _

/-- C9 witness: heap holding one concrete data frame. -/
theorem C9_witness :
    sampleRef.id < sampleHeap.tables.length ∧
    (((get_extracted_table sampleHeap (some sampleRef)).1.valueAt
        (get_extracted_table sampleHeap (some sampleRef)).2
        = sampleHeap.valueAt sampleRef) ∧
     (∀ t, ((get_extracted_table sampleHeap (some sampleRef)).1.mutate
        (get_extracted_table sampleHeap (some sampleRef)).2 t).valueAt sampleRef
        = sampleHeap.valueAt sampleRef) ∧
     ((get_extracted_table sampleHeap none).1.valueAt
        (get_extracted_table sampleHeap none).2 = ([] : Table))) :=
  ⟨by decide, C9_get_extracted_table_defensive_copy sampleHeap sampleRef (by decide)⟩

end BlueBrainSearch
